import Mathlib

/-!
Shallow embedding of the LyftrAI webhook backend (FastAPI + SQLite service):
the message store (`app/storage.py`, schema from `models.py`), the HMAC-SHA256
signature check and payload validation of the `/webhook` handler
(`app/main.py`), and the query endpoints over the store.

The SQLite table `messages(message_id TEXT PRIMARY KEY, from_msisdn TEXT NOT
NULL, to_msisdn TEXT NOT NULL, ts TEXT NOT NULL, text TEXT, created_at TEXT
NOT NULL)` is modelled as a `List Row`: the list order plays the role of
insertion order, and every query that cares about order sorts explicitly,
exactly as the SQL does via ORDER BY.
-/

namespace Webhook

/-- A persisted row of the `messages` table.  The NOT NULL columns are plain
`String`; `text` is nullable. -/
structure Row where
  message_id : String
  from_msisdn : String
  to_msisdn : String
  ts : String
  text : Option String
  created_at : String
  deriving DecidableEq, Repr

/-- The `message` dict argument of `storage.insert_message`: every value a
Python caller passes may be `None`, which the schema's NOT NULL constraints
reject at insert time (sqlite3.IntegrityError). -/
structure MsgDict where
  message_id : String
  from_msisdn : Option String
  to_msisdn : Option String
  ts : Option String
  text : Option String
  created_at : Option String
  deriving DecidableEq, Repr

/-- The row `insert_message` writes for a dict whose NOT NULL fields are all
present (`getD` is never hit on the success path). -/
def MsgDict.toRow (m : MsgDict) : Row :=
  { message_id := m.message_id
    from_msisdn := m.from_msisdn.getD ""
    to_msisdn := m.to_msisdn.getD ""
    ts := m.ts.getD ""
    text := m.text
    created_at := m.created_at.getD "" }

/-- `storage.insert_message`: executes the INSERT; any
`sqlite3.IntegrityError` (duplicate PRIMARY KEY `message_id`, or a NOT NULL
column bound to `None`) is caught and reported as `False`, leaving the table
unchanged; otherwise the row is committed and `True` returned. -/
def insert_message (m : MsgDict) (db : List Row) : Bool × List Row :=
  if db.any (fun r => r.message_id == m.message_id) then (false, db)
  else
    match m.from_msisdn, m.to_msisdn, m.ts, m.created_at with
    | some _, some _, some _, some _ => (true, db ++ [m.toRow])
    | _, _, _, _ => (false, db)

/-- SQLite's `lower()`: ASCII-only case folding (non-ASCII characters are
left untouched), which is what `LOWER(text) LIKE LOWER(?)` uses. -/
def sqlLower (s : String) : String :=
  String.mk (s.data.map fun c =>
    if c.toNat ≥ 65 ∧ c.toNat ≤ 90 then Char.ofNat (c.toNat + 32) else c)

/-- SQLite comparison of two TEXT values (BINARY collation): memcmp on the
UTF-8 encodings, which coincides with lexicographic order on the
codepoints. -/
def charsLt : List Char → List Char → Bool
  | [], [] => false
  | [], _ :: _ => true
  | _ :: _, [] => false
  | a :: as, b :: bs => decide (a.toNat < b.toNat) || (a == b && charsLt as bs)

/-- Strict `<` on TEXT values under SQLite BINARY collation. -/
def strLt (a b : String) : Bool :=
  charsLt a.data b.data

/-- Non-strict `<=`/`>=` on TEXT values:  `a <= b` iff not `b < a`. -/
def strLe (a b : String) : Bool :=
  !charsLt b.data a.data

/-- SQLite `LIKE` pattern matching against a string, both sides already
lower-cased by the query (so plain character equality is what remains): `%`
matches any sequence of characters, `_` matches exactly one character. -/
def likeMatch : List Char → List Char → Bool
  | [], s => s.isEmpty
  | '%' :: ps, s => s.tails.any fun t => likeMatch ps t
  | '_' :: ps, s =>
    match s with
    | [] => false
    | _ :: cs => likeMatch ps cs
  | a :: ps, s =>
    match s with
    | [] => false
    | c :: cs => a == c && likeMatch ps cs

/-- The `q` condition of `list_messages`: `text IS NOT NULL AND LOWER(text)
LIKE LOWER('%q%')`. -/
def qMatches (qv : String) (t : Option String) : Bool :=
  match t with
  | none => false
  | some txt => likeMatch (sqlLower ("%" ++ qv ++ "%")).data (sqlLower txt).data

/-- The WHERE clause of `storage.list_messages` applied to one row.  The
filters mirror the Python guards exactly: `from_msisdn` is added whenever it
`is not None` (so the empty string is an exact-match filter), while `since`
and `q` are added only when truthy (the empty string disables them).  String
comparison `ts >= since` is SQLite BINARY collation, i.e. codepointwise
lexicographic order on the UTF-8 text. -/
def rowMatches (fromF since q : Option String) (r : Row) : Bool :=
  (match fromF with
   | none => true
   | some f => r.from_msisdn == f)
  && (match since with
      | none => true
      | some sv => if sv = "" then true else strLe sv r.ts)
  && (match q with
      | none => true
      | some qv => if qv = "" then true else qMatches qv r.text)

/-- ORDER BY `ts ASC, message_id ASC` as a boolean order on rows. -/
def rowLe (r1 r2 : Row) : Bool :=
  strLt r1.ts r2.ts || (r1.ts == r2.ts && strLe r1.message_id r2.message_id)

/-- `storage.list_messages`: filters with the WHERE clause, counts the
matches ignoring pagination (the COUNT(*) query), orders by
`(ts, message_id)` ascending and applies OFFSET then LIMIT.  `limit` and
`offset` are the non-negative values the endpoint's bounds (`ge`) admit. -/
def list_messages (limit offset : Nat) (fromF since q : Option String)
    (db : List Row) : List Row × Nat :=
  let matching := db.filter (rowMatches fromF since q)
  (((matching.mergeSort rowLe).drop offset).take limit, matching.length)

/-- The fields of `storage.get_stats` the specification constrains.  The
`messages_per_sender` top-10 list is omitted: its GROUP BY/tie order is
backend-unspecified and no property here mentions it. -/
structure Stats where
  total_messages : Nat
  senders_count : Nat
  first_message_ts : Option String
  last_message_ts : Option String
  deriving DecidableEq, Repr

/-- SQL `MIN` over a column: `NULL` on the empty table. -/
def minString : List String → Option String
  | [] => none
  | x :: xs => some (xs.foldl (fun m y => if strLt y m then y else m) x)

/-- SQL `MAX` over a column: `NULL` on the empty table. -/
def maxString : List String → Option String
  | [] => none
  | x :: xs => some (xs.foldl (fun m y => if strLt m y then y else m) x)

/-- `storage.get_stats`: COUNT(*), COUNT(DISTINCT from_msisdn), MIN(ts),
MAX(ts). -/
def get_stats (db : List Row) : Stats :=
  { total_messages := db.length
    senders_count := (db.map (·.from_msisdn)).dedup.length
    first_message_ts := minString (db.map (·.ts))
    last_message_ts := maxString (db.map (·.ts)) }

/-! ### HMAC-SHA256 (`hmac.new(secret, body, hashlib.sha256).hexdigest()`)

The handler signs the raw body with HMAC-SHA256 and hex-encodes the digest.
Bytes are `Nat` values below 256, 32-bit words are `Nat` reduced mod `2 ^ 32`.
-/

/-- Right rotation of a 32-bit word (a `Nat` below `2 ^ 32`). -/
def rotr32 (n x : Nat) : Nat :=
  (x >>> n) ||| ((x % 2 ^ n) <<< (32 - n))

/-- The SHA-256 round constants (FIPS 180-4, written in decimal). -/
def sha256K : List Nat :=
  [1116352408, 1899447441, 3049323471, 3921009573, 961987163, 1508970993,
   2453635748, 2870763221, 3624381080, 310598401, 607225278, 1426881987,
   1925078388, 2162078206, 2614888103, 3248222580, 3835390401, 4022224774,
   264347078, 604807628, 770255983, 1249150122, 1555081692, 1996064986,
   2554220882, 2821834349, 2952996808, 3210313671, 3336571891, 3584528711,
   113926993, 338241895, 666307205, 773529912, 1294757372, 1396182291,
   1695183700, 1986661051, 2177026350, 2456956037, 2730485921, 2820302411,
   3259730800, 3345764771, 3516065817, 3600352804, 4094571909, 275423344,
   430227734, 506948616, 659060556, 883997877, 958139571, 1322822218,
   1537002063, 1747873779, 1955562222, 2024104815, 2227730452, 2361852424,
   2428436474, 2756734187, 3204031479, 3329325298]

/-- The eight 32-bit working variables of the SHA-256 compression function. -/
structure Sha256State where
  a : Nat
  b : Nat
  c : Nat
  d : Nat
  e : Nat
  f : Nat
  g : Nat
  h : Nat
  deriving Repr

/-- The SHA-256 initial hash value. -/
def sha256InitState : Sha256State :=
  ⟨1779033703, 3144134277, 1013904242,
   2773480762, 1359893119, 2600822924,
   528734635, 1541459225⟩

/-- One round of the SHA-256 compression function; `kw` is the sum input
`K[i]` paired with the schedule word `W[i]`. -/
def sha256Round (st : Sha256State) (kw : Nat × Nat) : Sha256State :=
  let s1 := rotr32 6 st.e ^^^ rotr32 11 st.e ^^^ rotr32 25 st.e
  let ch := (st.e &&& st.f) ^^^ ((st.e ^^^ 4294967295) &&& st.g)
  let temp1 := (st.h + s1 + ch + kw.1 + kw.2) % 2 ^ 32
  let s0 := rotr32 2 st.a ^^^ rotr32 13 st.a ^^^ rotr32 22 st.a
  let maj := (st.a &&& st.b) ^^^ (st.a &&& st.c) ^^^ (st.b &&& st.c)
  let temp2 := (s0 + maj) % 2 ^ 32
  ⟨(temp1 + temp2) % 2 ^ 32, st.a, st.b, st.c, (st.d + temp1) % 2 ^ 32, st.e, st.f, st.g⟩

/-- Message-schedule extension: appends `n` further words to `w`. -/
def sha256Extend (w : List Nat) : Nat → List Nat
  | 0 => w
  | n + 1 =>
    let i := w.length
    let w15 := w.getD (i - 15) 0
    let w2 := w.getD (i - 2) 0
    let s0 := rotr32 7 w15 ^^^ rotr32 18 w15 ^^^ (w15 >>> 3)
    let s1 := rotr32 17 w2 ^^^ rotr32 19 w2 ^^^ (w2 >>> 10)
    sha256Extend (w ++ [(w.getD (i - 16) 0 + s0 + w.getD (i - 7) 0 + s1) % 2 ^ 32]) n

/-- Compression of one 64-byte block into the running hash state. -/
def sha256Compress (st : Sha256State) (block : List Nat) : Sha256State :=
  let w0 := (List.range 16).map fun i =>
    (block.getD (4 * i) 0) <<< 24 ||| (block.getD (4 * i + 1) 0) <<< 16 |||
      (block.getD (4 * i + 2) 0) <<< 8 ||| block.getD (4 * i + 3) 0
  let t := (sha256K.zip (sha256Extend w0 48)).foldl sha256Round st
  ⟨(st.a + t.a) % 2 ^ 32, (st.b + t.b) % 2 ^ 32, (st.c + t.c) % 2 ^ 32,
   (st.d + t.d) % 2 ^ 32, (st.e + t.e) % 2 ^ 32, (st.f + t.f) % 2 ^ 32,
   (st.g + t.g) % 2 ^ 32, (st.h + t.h) % 2 ^ 32⟩

/-- SHA-256 padding: `0x80`, zeros up to 56 mod 64, 8-byte big-endian bit
length. -/
def sha256Pad (msg : List Nat) : List Nat :=
  msg ++ [0x80] ++ List.replicate ((119 - msg.length % 64) % 64) 0
    ++ (List.range 8).map fun i => (msg.length * 8) >>> ((7 - i) * 8) % 2 ^ 64 % 256

/-- Splits a byte list into 64-byte chunks. -/
def chunks64 : List Nat → List (List Nat)
  | [] => []
  | x :: xs => (x :: xs).take 64 :: chunks64 ((x :: xs).drop 64)
termination_by l => l.length
decreasing_by simp; omega

/-- The four big-endian bytes of a 32-bit word. -/
def wordBytes (x : Nat) : List Nat :=
  [(x >>> 24) % 256, (x >>> 16) % 256, (x >>> 8) % 256, x % 256]

/-- The 32-byte digest serialisation of a final hash state. -/
def stateBytes (st : Sha256State) : List Nat :=
  wordBytes st.a ++ wordBytes st.b ++ wordBytes st.c ++ wordBytes st.d ++
    wordBytes st.e ++ wordBytes st.f ++ wordBytes st.g ++ wordBytes st.h

/-- SHA-256 of a byte list, as the 32 digest bytes. -/
def sha256Bytes (msg : List Nat) : List Nat :=
  stateBytes ((chunks64 (sha256Pad msg)).foldl sha256Compress sha256InitState)

/-- Lower-case hex digit, as `hexdigest()` produces. -/
def hexDigit (n : Nat) : Char :=
  if n < 10 then Char.ofNat (48 + n) else Char.ofNat (87 + n)

/-- Lower-case hex encoding of a byte list. -/
def bytesToHex (l : List Nat) : String :=
  String.mk (l.flatMap fun b => [hexDigit (b / 16 % 16), hexDigit (b % 16)])

/-- UTF-8 encoding of one character (Python `str.encode("utf-8")`). -/
def charUtf8 (c : Char) : List Nat :=
  let n := c.toNat
  if n < 0x80 then [n]
  else if n < 0x800 then [0xc0 + n / 64, 0x80 + n % 64]
  else if n < 0x10000 then [0xe0 + n / 4096, 0x80 + n / 64 % 64, 0x80 + n % 64]
  else [0xf0 + n / 262144, 0x80 + n / 4096 % 64, 0x80 + n / 64 % 64, 0x80 + n % 64]

/-- UTF-8 bytes of a string. -/
def utf8Bytes (s : String) : List Nat :=
  s.data.flatMap charUtf8

/-- `hmac.new(key, msg, hashlib.sha256).hexdigest()`: RFC 2104 HMAC with a
64-byte block size, hex-encoded lower-case. -/
def hmacSha256Hex (key msg : List Nat) : String :=
  let k0 := if key.length > 64 then sha256Bytes key else key
  let kp := k0 ++ List.replicate (64 - k0.length) 0
  bytesToHex (sha256Bytes
    ((kp.map (· ^^^ 0x5c)) ++ sha256Bytes ((kp.map (· ^^^ 0x36)) ++ msg)))

/-! ### The `/webhook` handler (`app/main.py`)

JSON decoding of the raw body and ISO-8601 timestamp parsing are Python
standard-library behaviour, so the handler model takes them as parameters:
`decoded` is the JSON object the body decodes to (`none` when the body is not
a JSON object of the right shape) with each field of `WebhookPayload` as the
decoder delivers it, and `isoParses` is `datetime.fromisoformat`'s
acceptance predicate.  Everything else — signature comparison, field
validation, storage, response selection — is translated from the source. -/

/-- The JSON object fields relevant to `WebhookPayload`, before validation:
a field that is absent (or JSON `null`) is `none`. -/
structure RawPayload where
  message_id : Option String
  fromF : Option String
  toF : Option String
  ts : Option String
  text : Option String
  deriving DecidableEq, Repr

/-- A validated `WebhookPayload` (pydantic model of `app/main.py`). -/
structure WebhookPayload where
  message_id : String
  from_msisdn : String
  toF : String
  ts : String
  text : Option String
  deriving DecidableEq, Repr

/-- The pydantic pattern `^\+\d+$` on the `from` and `to` fields: a plus
sign followed by one or more digits.  (Python's `\d` also admits non-ASCII
decimal digits; no property below depends on non-ASCII input.) -/
def matchesMsisdn (s : String) : Bool :=
  match s.data with
  | '+' :: rest => !rest.isEmpty && rest.all (fun c => c.isDigit)
  | _ => false

/-- The `validate_ts` field validator: `datetime.fromisoformat` applied to
the value with every `"Z"` replaced by `"+00:00"`. -/
def tsParses (isoParses : String → Bool) (v : String) : Bool :=
  isoParses (v.replace "Z" "+00:00")

/-- The list of `WebhookPayload` fields that fail pydantic validation, in
field order: `message_id` required with `min_length=1`; `from` and `to`
required matching `^\+\d+$`; `ts` required and parseable; `text` optional
with `max_length=4096`. -/
def payloadErrors (isoParses : String → Bool) (raw : RawPayload) : List String :=
  (match raw.message_id with
   | none => ["message_id"]
   | some m => if m.length ≥ 1 then [] else ["message_id"])
  ++ (match raw.fromF with
      | none => ["from"]
      | some f => if matchesMsisdn f then [] else ["from"])
  ++ (match raw.toF with
      | none => ["to"]
      | some t => if matchesMsisdn t then [] else ["to"])
  ++ (match raw.ts with
      | none => ["ts"]
      | some u => if tsParses isoParses u then [] else ["ts"])
  ++ (match raw.text with
      | none => []
      | some x => if x.length ≤ 4096 then [] else ["text"])

/-- `WebhookPayload.model_validate_json` after JSON decoding: all fields
valid gives the validated payload, otherwise the validation errors. -/
def validatePayload (isoParses : String → Bool) (raw : RawPayload) :
    Except (List String) WebhookPayload :=
  if payloadErrors isoParses raw = [] then
    match raw.message_id, raw.fromF, raw.toF, raw.ts with
    | some m, some f, some t, some u => .ok ⟨m, f, t, u, raw.text⟩
    | _, _, _, _ => .error (payloadErrors isoParses raw)
  else .error (payloadErrors isoParses raw)

/-- The three response shapes the `/webhook` handler produces. -/
inductive WebhookResponse where
  | success : WebhookResponse
  | invalidSignature : WebhookResponse
  | validationFailure : List String → WebhookResponse
  deriving DecidableEq, Repr

/-- The HTTP status of a `/webhook` response. -/
def WebhookResponse.status : WebhookResponse → Nat
  | .success => 200
  | .invalidSignature => 401
  | .validationFailure _ => 422

/-- The JSON object body of the 200 and 401 `/webhook` responses, as
key-value pairs (the 422 body is FastAPI's field-error structure). -/
def WebhookResponse.bodyPairs : WebhookResponse → List (String × String)
  | .success => [("status", "ok")]
  | .invalidSignature => [("detail", "invalid signature")]
  | .validationFailure fields => fields.map (fun f => ("loc", f))

/-- The `POST /webhook` handler, translated step by step from `app/main.py`:
compute the expected HMAC-SHA256 hex digest of the raw body under the
configured secret; reject with 401 `{"detail": "invalid signature"}` unless
the `X-Signature` header is present, truthy and equal to it; then validate
the decoded payload, re-raising as a 422 on failure; then build the message
dict (with the server-assigned `created_at := now`) and insert it, returning
200 `{"status": "ok"}` on both `Created` and `Duplicate`. -/
def webhook (secret : String) (rawBody : List Nat) (sigHeader : Option String)
    (decoded : Option RawPayload) (isoParses : String → Bool) (now : String)
    (db : List Row) : WebhookResponse × List Row :=
  let expected := hmacSha256Hex (utf8Bytes secret) rawBody
  match sigHeader with
  | none => (.invalidSignature, db)
  | some h =>
    if h = "" then (.invalidSignature, db)
    else if h ≠ expected then (.invalidSignature, db)
    else
      match decoded with
      | none => (.validationFailure ["body"], db)
      | some raw =>
        match validatePayload isoParses raw with
        | .error fields => (.validationFailure fields, db)
        | .ok p =>
          let message : MsgDict :=
            { message_id := p.message_id
              from_msisdn := some p.from_msisdn
              to_msisdn := some p.toF
              ts := some p.ts
              text := p.text
              created_at := some now }
          let res := insert_message message db
          (.success, res.2)

/-! ### Helper lemmas -/

theorem bytesToHex_cons_ne_empty (b : Nat) (l : List Nat) : bytesToHex (b :: l) ≠ "" := by
  intro h
  have h2 := congrArg String.data h
  simp [bytesToHex] at h2

theorem hmacSha256Hex_ne_empty (key msg : List Nat) : hmacSha256Hex key msg ≠ "" := by
  unfold hmacSha256Hex sha256Bytes stateBytes wordBytes
  simp only [List.cons_append]
  apply bytesToHex_cons_ne_empty

theorem string_eq_of_data_eq (a b : String) (h : a.data = b.data) : a = b := by
  cases a; cases b; exact congrArg String.mk h

theorem charsLt_irrefl : ∀ l, charsLt l l = false := by
  intro l
  induction l with
  | nil => rfl
  | cons a as ih => simp [charsLt, ih]

theorem charsLt_trans : ∀ l1 l2 l3, charsLt l1 l2 → charsLt l2 l3 → charsLt l1 l3 := by
  intro l1
  induction l1 with
  | nil =>
    intro l2 l3 h1 h2
    cases l2 with
    | nil => simp [charsLt] at h1
    | cons b bs =>
      cases l3 with
      | nil => simp [charsLt] at h2
      | cons c cs => simp [charsLt]
  | cons a as ih =>
    intro l2 l3 h1 h2
    cases l2 with
    | nil => simp [charsLt] at h1
    | cons b bs =>
      cases l3 with
      | nil => simp [charsLt] at h2
      | cons c cs =>
        simp only [charsLt, Bool.or_eq_true, Bool.and_eq_true, decide_eq_true_eq,
          beq_iff_eq] at h1 h2 ⊢
        rcases h1 with h1 | ⟨h1, h1'⟩ <;> rcases h2 with h2 | ⟨h2, h2'⟩
        · exact Or.inl (h1.trans h2)
        · exact Or.inl (h2 ▸ h1)
        · exact Or.inl (h1 ▸ h2)
        · exact Or.inr ⟨h1.trans h2, ih bs cs h1' h2'⟩

theorem charsLt_eq_of_not : ∀ l1 l2, charsLt l1 l2 = false → charsLt l2 l1 = false →
    l1 = l2 := by
  intro l1
  induction l1 with
  | nil =>
    intro l2 h1 h2
    cases l2 with
    | nil => rfl
    | cons b bs => simp [charsLt] at h1
  | cons a as ih =>
    intro l2 h1 h2
    cases l2 with
    | nil => simp [charsLt] at h2
    | cons b bs =>
      simp only [charsLt, Bool.or_eq_false_iff, Bool.and_eq_false_iff,
        decide_eq_false_iff_not, beq_eq_false_iff_ne, ne_eq] at h1 h2
      have hab : a = b := by
        have := congrArg Char.ofNat (Nat.le_antisymm (Nat.le_of_not_lt h2.1) (Nat.le_of_not_lt h1.1))
        simpa [Char.ofNat_toNat] using this
      subst hab
      rcases h1.2 with h | h
      · exact absurd rfl h
      · rcases h2.2 with h' | h'
        · exact absurd rfl h'
        · rw [ih bs h h']

theorem charsLt_asymm (l1 l2 : List Char) (h : charsLt l1 l2 = true) :
    charsLt l2 l1 = false := by
  by_contra h2
  rw [Bool.not_eq_false] at h2
  have h3 := charsLt_trans l1 l2 l1 h h2
  rw [charsLt_irrefl] at h3
  exact Bool.false_ne_true h3

theorem charsLt_trichotomy (l1 l2 : List Char) :
    charsLt l1 l2 = true ∨ l1 = l2 ∨ charsLt l2 l1 = true := by
  cases h1 : charsLt l1 l2
  · cases h2 : charsLt l2 l1
    · exact Or.inr (Or.inl (charsLt_eq_of_not l1 l2 h1 h2))
    · exact Or.inr (Or.inr rfl)
  · exact Or.inl rfl

theorem strLt_trans (a b c : String) (h1 : strLt a b) (h2 : strLt b c) : strLt a c :=
  charsLt_trans _ _ _ h1 h2

theorem strLt_irrefl (a : String) : strLt a a = false :=
  charsLt_irrefl a.data

theorem strLe_refl (a : String) : strLe a a := by
  simp [strLe, charsLt_irrefl]

theorem strLe_of_strLt (a b : String) (h : strLt a b) : strLe a b := by
  simp only [strLe, Bool.not_eq_true']
  exact charsLt_asymm _ _ h

theorem strLe_of_not_strLt (a b : String) (h : strLt a b = false) : strLe b a := by
  simp only [strLe, Bool.not_eq_true']
  exact h

theorem strLe_trans (a b c : String) (h1 : strLe a b) (h2 : strLe b c) : strLe a c := by
  simp only [strLe, Bool.not_eq_true'] at h1 h2 ⊢
  by_contra hca
  rw [Bool.not_eq_false] at hca
  rcases charsLt_trichotomy b.data c.data with h | h | h
  · have h3 := charsLt_trans _ _ _ h hca
    rw [h1] at h3
    exact Bool.noConfusion h3
  · rw [← h] at hca
    rw [h1] at hca
    exact Bool.noConfusion hca
  · rw [h2] at h
    exact Bool.noConfusion h

theorem strLe_total (a b : String) : strLe a b || strLe b a := by
  simp only [Bool.or_eq_true, strLe, Bool.not_eq_true']
  cases h : charsLt b.data a.data
  · exact Or.inl rfl
  · exact Or.inr (charsLt_asymm _ _ h)

theorem strLe_antisymm (a b : String) (h1 : strLe a b) (h2 : strLe b a) : a = b := by
  simp only [strLe, Bool.not_eq_true'] at h1 h2
  exact string_eq_of_data_eq a b (charsLt_eq_of_not _ _ h2 h1)

theorem rowLe_trans (a b c : Row) (h1 : rowLe a b) (h2 : rowLe b c) : rowLe a c := by
  simp only [rowLe, Bool.or_eq_true, Bool.and_eq_true, beq_iff_eq] at h1 h2 ⊢
  rcases h1 with h1 | ⟨h1, h1'⟩ <;> rcases h2 with h2 | ⟨h2, h2'⟩
  · exact Or.inl (strLt_trans _ _ _ h1 h2)
  · exact Or.inl (h2 ▸ h1)
  · refine Or.inl ?_
    rw [h1]
    exact h2
  · exact Or.inr ⟨h1.trans h2, strLe_trans _ _ _ h1' h2'⟩

theorem rowLe_total (a b : Row) : rowLe a b || rowLe b a := by
  simp only [rowLe, strLt, Bool.or_eq_true, Bool.and_eq_true, beq_iff_eq]
  rcases charsLt_trichotomy a.ts.data b.ts.data with h | h | h
  · exact Or.inl (Or.inl h)
  · have hts : a.ts = b.ts := string_eq_of_data_eq _ _ h
    cases hle : strLe a.message_id b.message_id
    · have htot := strLe_total a.message_id b.message_id
      rw [hle] at htot
      simp only [Bool.false_or] at htot
      exact Or.inr (Or.inr ⟨hts.symm, htot⟩)
    · exact Or.inl (Or.inr ⟨hts, rfl⟩)
  · exact Or.inr (Or.inl h)

theorem rowLe_antisymm_keys (a b : Row) (h1 : rowLe a b) (h2 : rowLe b a) :
    a.ts = b.ts ∧ a.message_id = b.message_id := by
  simp only [rowLe, strLt, Bool.or_eq_true, Bool.and_eq_true, beq_iff_eq] at h1 h2
  rcases h1 with h1 | ⟨h1, h1'⟩ <;> rcases h2 with h2 | ⟨h2, h2'⟩
  · rw [charsLt_asymm _ _ h1] at h2
    exact Bool.noConfusion h2
  · rw [h2] at h1
    rw [charsLt_irrefl] at h1
    exact Bool.noConfusion h1
  · rw [h1] at h2
    rw [charsLt_irrefl] at h2
    exact Bool.noConfusion h2
  · exact ⟨h1, strLe_antisymm _ _ h1' h2'⟩

theorem eq_of_sorted_of_perm {α : Type} (le : α → α → Bool) :
    ∀ (l1 l2 : List α), l1.Perm l2 →
      (∀ a ∈ l1, ∀ b ∈ l1, le a b → le b a → a = b) →
      l1.Pairwise (le · ·) → l2.Pairwise (le · ·) → l1 = l2 := by
  intro l1
  induction l1 with
  | nil => intro l2 hp _ _ _; simpa using hp.nil_eq
  | cons a t1 ih =>
    intro l2 hp anti s1 s2
    match l2 with
    | [] => exact absurd hp.symm.nil_eq (by simp)
    | b :: t2 =>
      have hab : a = b := by
        have ha2 : a ∈ b :: t2 := hp.mem_iff.mp (by simp)
        have hb1 : b ∈ a :: t1 := hp.mem_iff.mpr (by simp)
        rcases List.mem_cons.mp ha2 with h | ha2'
        · exact h
        · rcases List.mem_cons.mp hb1 with h | hb1'
          · exact h.symm
          · have hle1 : le a b := (List.pairwise_cons.mp s1).1 b hb1'
            have hle2 : le b a := (List.pairwise_cons.mp s2).1 a ha2'
            exact anti a (by simp) b (by simp [hb1']) hle1 hle2
      subst hab
      have ht : t1 = t2 := by
        refine ih t2 hp.cons_inv ?_ (List.pairwise_cons.mp s1).2 (List.pairwise_cons.mp s2).2
        intro x hx y hy
        exact anti x (by simp [hx]) y (by simp [hy])
      rw [ht]

theorem foldlMin_mem (xs : List String) :
    ∀ a, xs.foldl (fun m y => if strLt y m then y else m) a ∈ a :: xs := by
  induction xs with
  | nil => simp
  | cons y ys ih =>
    intro a
    simp only [List.foldl_cons]
    rcases List.mem_cons.mp (ih (if strLt y a then y else a)) with h | h
    · rw [h]
      cases hy : strLt y a <;> simp
    · exact List.mem_cons_of_mem a (List.mem_cons_of_mem y h)

theorem foldlMin_le (xs : List String) :
    ∀ a, ∀ z ∈ a :: xs, strLe (xs.foldl (fun m y => if strLt y m then y else m) a) z := by
  induction xs with
  | nil =>
    intro a z hz
    simp only [List.mem_singleton] at hz
    rw [hz]
    exact strLe_refl a
  | cons y ys ih =>
    intro a z hz
    simp only [List.foldl_cons]
    have step_le_a : strLe (if strLt y a then y else a) a := by
      cases hy : strLt y a
      · simpa using strLe_refl a
      · simpa using strLe_of_strLt y a hy
    have step_le_y : strLe (if strLt y a then y else a) y := by
      cases hy : strLt y a
      · simpa using strLe_of_not_strLt y a hy
      · simpa using strLe_refl y
    have hfold_step : strLe
        (ys.foldl (fun m y => if strLt y m then y else m) (if strLt y a then y else a))
        (if strLt y a then y else a) :=
      ih (if strLt y a then y else a) (if strLt y a then y else a) (List.mem_cons_self _ _)
    rcases List.mem_cons.mp hz with h | h
    · rw [h]
      exact strLe_trans _ _ _ hfold_step step_le_a
    · rcases List.mem_cons.mp h with h' | h'
      · rw [h']
        exact strLe_trans _ _ _ hfold_step step_le_y
      · exact ih (if strLt y a then y else a) z (List.mem_cons_of_mem _ h')

theorem foldlMax_mem (xs : List String) :
    ∀ a, xs.foldl (fun m y => if strLt m y then y else m) a ∈ a :: xs := by
  induction xs with
  | nil => simp
  | cons y ys ih =>
    intro a
    simp only [List.foldl_cons]
    rcases List.mem_cons.mp (ih (if strLt a y then y else a)) with h | h
    · rw [h]
      cases hy : strLt a y <;> simp
    · exact List.mem_cons_of_mem a (List.mem_cons_of_mem y h)

theorem foldlMax_le (xs : List String) :
    ∀ a, ∀ z ∈ a :: xs, strLe z (xs.foldl (fun m y => if strLt m y then y else m) a) := by
  induction xs with
  | nil =>
    intro a z hz
    simp only [List.mem_singleton] at hz
    rw [hz]
    exact strLe_refl a
  | cons y ys ih =>
    intro a z hz
    simp only [List.foldl_cons]
    have a_le_step : strLe a (if strLt a y then y else a) := by
      cases hy : strLt a y
      · simpa using strLe_refl a
      · simpa using strLe_of_strLt a y hy
    have y_le_step : strLe y (if strLt a y then y else a) := by
      cases hy : strLt a y
      · simpa using strLe_of_not_strLt a y hy
      · simpa using strLe_refl y
    have step_le_fold : strLe (if strLt a y then y else a)
        (ys.foldl (fun m y => if strLt m y then y else m) (if strLt a y then y else a)) :=
      ih (if strLt a y then y else a) (if strLt a y then y else a) (List.mem_cons_self _ _)
    rcases List.mem_cons.mp hz with h | h
    · rw [h]
      exact strLe_trans _ _ _ a_le_step step_le_fold
    · rcases List.mem_cons.mp h with h' | h'
      · rw [h']
        exact strLe_trans _ _ _ y_le_step step_le_fold
      · exact ih (if strLt a y then y else a) z (List.mem_cons_of_mem _ h')

/-! ### Claim theorems -/

/-- C1: inserting twice with the same `message_id` — even when the second
dict differs in other fields such as `text` — yields `True` (Created) then
`False` (Duplicate), and after the second call the store still holds exactly
the row written by the first call. -/
theorem C1_insert_idempotent (m m2 : MsgDict) (db : List Row)
    (f t u c : String)
    (hfresh : ∀ r ∈ db, r.message_id ≠ m.message_id)
    (hf : m.from_msisdn = some f) (ht : m.to_msisdn = some t)
    (hu : m.ts = some u) (hc : m.created_at = some c)
    (hid : m2.message_id = m.message_id) :
    insert_message m db = (true, db ++ [m.toRow]) ∧
      insert_message m2 (db ++ [m.toRow]) = (false, db ++ [m.toRow]) := by
  have hany : db.any (fun r => r.message_id == m.message_id) = false := by
    simp only [List.any_eq_false, beq_iff_eq]
    exact hfresh
  constructor
  · simp [insert_message, hany, hf, ht, hu, hc]
  · have hdup : (db ++ [m.toRow]).any (fun r => r.message_id == m2.message_id) = true := by
      simp [MsgDict.toRow, hid]
    simp [insert_message, hdup]

/-- C1 witness: a concrete double insert where the second dict carries
different `text` and `created_at`. -/
theorem C1_insert_idempotent_witness :
    insert_message
        (⟨"m1", some "+15551234567", some "+15557654321",
          some "2024-01-01T00:00:00Z", some "hi", some "c1"⟩ : MsgDict) [] =
      (true, [] ++ [(⟨"m1", some "+15551234567", some "+15557654321",
          some "2024-01-01T00:00:00Z", some "hi", some "c1"⟩ : MsgDict).toRow]) ∧
    insert_message
        (⟨"m1", some "+10000000000", some "+20000000000",
          some "2030-01-01T00:00:00Z", some "bye", some "c2"⟩ : MsgDict)
        ([] ++ [(⟨"m1", some "+15551234567", some "+15557654321",
          some "2024-01-01T00:00:00Z", some "hi", some "c1"⟩ : MsgDict).toRow]) =
      (false, [] ++ [(⟨"m1", some "+15551234567", some "+15557654321",
          some "2024-01-01T00:00:00Z", some "hi", some "c1"⟩ : MsgDict).toRow]) :=
  C1_insert_idempotent
    ⟨"m1", some "+15551234567", some "+15557654321",
      some "2024-01-01T00:00:00Z", some "hi", some "c1"⟩
    ⟨"m1", some "+10000000000", some "+20000000000",
      some "2030-01-01T00:00:00Z", some "bye", some "c2"⟩
    [] "+15551234567" "+15557654321" "2024-01-01T00:00:00Z" "c1"
    (by simp) rfl rfl rfl rfl rfl

/-- C9: an insert that violates an integrity constraint of the `messages`
table — here a NOT NULL column (`from_msisdn`, `to_msisdn`, `ts` or
`created_at`) bound to `None` — returns `False` and stores nothing, exactly
the observable outcome of a duplicate `message_id`: at the store interface
the two rejections are indistinguishable. -/
theorem C9_integrity_error_like_duplicate (m : MsgDict) (db : List Row)
    (hnull : m.from_msisdn = none ∨ m.to_msisdn = none ∨ m.ts = none ∨
      m.created_at = none) :
    insert_message m db = (false, db) ∧
      ∀ (m2 : MsgDict) (db2 : List Row), (∃ r ∈ db2, r.message_id = m2.message_id) →
        insert_message m2 db2 = (false, db2) := by
  constructor
  · by_cases hany : db.any (fun r => r.message_id == m.message_id) = true
    · simp [insert_message, hany]
    · cases hmf : m.from_msisdn <;> cases hmt : m.to_msisdn <;> cases hmu : m.ts <;>
        cases hmc : m.created_at <;> simp_all [insert_message]
  · rintro m2 db2 ⟨r, hr, hrid⟩
    have hdup : db2.any (fun x => x.message_id == m2.message_id) = true := by
      simp only [List.any_eq_true, beq_iff_eq]
      exact ⟨r, hr, hrid⟩
    simp [insert_message, hdup]

/-- C9 witness: a dict with `ts = None` against a non-empty store, compared
with a duplicate insert that is observably identical. -/
theorem C9_integrity_error_like_duplicate_witness :
    insert_message
        (⟨"m9", some "+1", some "+2", none, some "hi", some "c1"⟩ : MsgDict)
        [⟨"m8", "+1", "+2", "t", none, "c0"⟩] =
      (false, [⟨"m8", "+1", "+2", "t", none, "c0"⟩]) ∧
    insert_message
        (⟨"m8", some "+1", some "+2", some "t2", some "hi", some "c2"⟩ : MsgDict)
        [⟨"m8", "+1", "+2", "t", none, "c0"⟩] =
      (false, [⟨"m8", "+1", "+2", "t", none, "c0"⟩]) := by
  have h := C9_integrity_error_like_duplicate
    ⟨"m9", some "+1", some "+2", none, some "hi", some "c1"⟩
    [⟨"m8", "+1", "+2", "t", none, "c0"⟩]
    (Or.inr (Or.inr (Or.inl rfl)))
  exact ⟨h.1, h.2 ⟨"m8", some "+1", some "+2", some "t2", some "hi", some "c2"⟩
    [⟨"m8", "+1", "+2", "t", none, "c0"⟩] ⟨⟨"m8", "+1", "+2", "t", none, "c0"⟩, by simp⟩⟩

/-- C10: in `list_messages`, the empty string for `since` or `q` disables
that filter (the guards are truthiness tests), the empty string for
`from_msisdn` is an exact-match filter for the empty sender (the guard is an
`is not None` test), and `None` disables each of the three filters. -/
theorem C10_empty_string_vs_none_filters (limit offset : Nat)
    (f si q : Option String) (db : List Row) (r : Row) :
    rowMatches f (some "") q r = rowMatches f none q r ∧
    rowMatches f si (some "") r = rowMatches f si none r ∧
    list_messages limit offset f (some "") q db =
      list_messages limit offset f none q db ∧
    list_messages limit offset f si (some "") db =
      list_messages limit offset f si none db ∧
    rowMatches (some "") si q r = ((r.from_msisdn == "") && rowMatches none si q r) ∧
    rowMatches none none none r = true ∧
    (list_messages limit offset none none none db).2 = db.length := by
  have hsi : rowMatches f (some "") q = rowMatches f none q := by
    funext x; rfl
  have hq : rowMatches f si (some "") = rowMatches f si none := by
    funext x; simp [rowMatches]
  refine ⟨congrFun hsi r, congrFun hq r, by rw [list_messages, hsi, ← list_messages],
    by rw [list_messages, hq, ← list_messages], ?_, ?_, ?_⟩
  · simp [rowMatches, Bool.and_assoc]
  · simp [rowMatches]
  · have hall : db.filter (rowMatches none none none) = db :=
      List.filter_eq_self.mpr (fun x _ => by simp [rowMatches])
    simp [list_messages, hall]

/-- C8: on the empty store `get_stats` reports its first/last timestamps as
absent (`None`); on a non-empty store they are the minimum and maximum `ts`
over all rows. -/
theorem C8_stats_first_last_ts (db : List Row) :
    (db = [] → (get_stats db).first_message_ts = none ∧
      (get_stats db).last_message_ts = none) ∧
    (db ≠ [] → ∃ mn mx, (get_stats db).first_message_ts = some mn ∧
      (get_stats db).last_message_ts = some mx ∧
      mn ∈ db.map (·.ts) ∧ mx ∈ db.map (·.ts) ∧
      ∀ r ∈ db, strLe mn r.ts ∧ strLe r.ts mx) := by
  constructor
  · intro h; subst h; simp [get_stats, minString, maxString]
  · intro h
    cases db with
    | nil => exact absurd rfl h
    | cons r0 rest =>
      refine ⟨(rest.map (·.ts)).foldl (fun m y => if strLt y m then y else m) r0.ts,
        (rest.map (·.ts)).foldl (fun m y => if strLt m y then y else m) r0.ts,
        by simp [get_stats, minString], by simp [get_stats, maxString], ?_, ?_, ?_⟩
      · simpa using foldlMin_mem (rest.map (·.ts)) r0.ts
      · simpa using foldlMax_mem (rest.map (·.ts)) r0.ts
      · intro r hr
        have hmem : r.ts ∈ r0.ts :: rest.map (·.ts) := by
          rcases List.mem_cons.mp hr with h' | h'
          · simp [h']
          · simp [List.mem_cons, List.mem_map]
            exact Or.inr ⟨r, h', rfl⟩
        exact ⟨foldlMin_le (rest.map (·.ts)) r0.ts r.ts hmem,
          foldlMax_le (rest.map (·.ts)) r0.ts r.ts hmem⟩

/-- C8 witness: the empty store and a concrete two-row store. -/
theorem C8_stats_first_last_ts_witness :
    ((get_stats []).first_message_ts = none ∧ (get_stats []).last_message_ts = none) ∧
    (∃ mn mx,
      (get_stats [⟨"a", "+1", "+2", "2024-05-05T00:00:00Z", none, "c"⟩,
        ⟨"b", "+1", "+2", "2023-01-01T00:00:00Z", none, "c"⟩]).first_message_ts = some mn ∧
      (get_stats [⟨"a", "+1", "+2", "2024-05-05T00:00:00Z", none, "c"⟩,
        ⟨"b", "+1", "+2", "2023-01-01T00:00:00Z", none, "c"⟩]).last_message_ts = some mx ∧
      mn ∈ ([⟨"a", "+1", "+2", "2024-05-05T00:00:00Z", none, "c"⟩,
        ⟨"b", "+1", "+2", "2023-01-01T00:00:00Z", none, "c"⟩] : List Row).map (·.ts) ∧
      mx ∈ ([⟨"a", "+1", "+2", "2024-05-05T00:00:00Z", none, "c"⟩,
        ⟨"b", "+1", "+2", "2023-01-01T00:00:00Z", none, "c"⟩] : List Row).map (·.ts) ∧
      ∀ r ∈ ([⟨"a", "+1", "+2", "2024-05-05T00:00:00Z", none, "c"⟩,
        ⟨"b", "+1", "+2", "2023-01-01T00:00:00Z", none, "c"⟩] : List Row),
        strLe mn r.ts ∧ strLe r.ts mx) :=
  ⟨(C8_stats_first_last_ts []).1 rfl,
    (C8_stats_first_last_ts
      [⟨"a", "+1", "+2", "2024-05-05T00:00:00Z", none, "c"⟩,
        ⟨"b", "+1", "+2", "2023-01-01T00:00:00Z", none, "c"⟩]).2 (by simp)⟩

/-- C4: for every store state and filter combination, the `total` returned
by `list_messages` is the number of stored rows matching the WHERE clause,
independent of `limit` and `offset`; and with `offset 0` and any `limit` at
least `total`, the returned page has length exactly `total`. -/
theorem C4_total_counts_all_matches (limit offset : Nat) (f si q : Option String)
    (db : List Row) :
    (list_messages limit offset f si q db).2 =
      (db.filter (rowMatches f si q)).length ∧
    ∀ L, (list_messages limit offset f si q db).2 ≤ L →
      ((list_messages L 0 f si q db).1).length = (list_messages L 0 f si q db).2 := by
  refine ⟨rfl, ?_⟩
  intro L hL
  simp only [list_messages, List.drop_zero, List.length_take, List.length_mergeSort] at *
  omega

/-- C4 witness: a concrete store of three rows, two matching the `since`
filter, listed with `limit = 5 ≥ total = 2`. -/
theorem C4_total_counts_all_matches_witness :
    (list_messages 1 7 none (some "2024") none
        [⟨"a", "+1", "+2", "2024-05-05T00:00:00Z", none, "c"⟩,
          ⟨"b", "+1", "+2", "2023-01-01T00:00:00Z", none, "c"⟩,
          ⟨"c", "+1", "+2", "2025-01-01T00:00:00Z", none, "c"⟩]).2 =
      (([⟨"a", "+1", "+2", "2024-05-05T00:00:00Z", none, "c"⟩,
          ⟨"b", "+1", "+2", "2023-01-01T00:00:00Z", none, "c"⟩,
          ⟨"c", "+1", "+2", "2025-01-01T00:00:00Z", none, "c"⟩] : List Row).filter
        (rowMatches none (some "2024") none)).length ∧
    ((list_messages 5 0 none (some "2024") none
        [⟨"a", "+1", "+2", "2024-05-05T00:00:00Z", none, "c"⟩,
          ⟨"b", "+1", "+2", "2023-01-01T00:00:00Z", none, "c"⟩,
          ⟨"c", "+1", "+2", "2025-01-01T00:00:00Z", none, "c"⟩]).1).length =
      (list_messages 5 0 none (some "2024") none
        [⟨"a", "+1", "+2", "2024-05-05T00:00:00Z", none, "c"⟩,
          ⟨"b", "+1", "+2", "2023-01-01T00:00:00Z", none, "c"⟩,
          ⟨"c", "+1", "+2", "2025-01-01T00:00:00Z", none, "c"⟩]).2 :=
  ⟨(C4_total_counts_all_matches 1 7 none (some "2024") none
      [⟨"a", "+1", "+2", "2024-05-05T00:00:00Z", none, "c"⟩,
        ⟨"b", "+1", "+2", "2023-01-01T00:00:00Z", none, "c"⟩,
        ⟨"c", "+1", "+2", "2025-01-01T00:00:00Z", none, "c"⟩]).1,
    (C4_total_counts_all_matches 1 7 none (some "2024") none
      [⟨"a", "+1", "+2", "2024-05-05T00:00:00Z", none, "c"⟩,
        ⟨"b", "+1", "+2", "2023-01-01T00:00:00Z", none, "c"⟩,
        ⟨"c", "+1", "+2", "2025-01-01T00:00:00Z", none, "c"⟩]).2 5 (by decide)⟩

/-- C5: every page returned by `list_messages` is sorted ascending by
`(ts, message_id)`; and on a store whose rows carry pairwise-distinct
`message_id`s (the PRIMARY KEY invariant) the output is the same for any
permutation of the store, i.e. independent of insertion order. -/
theorem C5_page_sorted (limit offset : Nat) (f si q : Option String) (db : List Row) :
    ((list_messages limit offset f si q db).1).Pairwise (rowLe · ·) ∧
    ∀ db2, db.Perm db2 →
      db.Pairwise (fun r1 r2 => r1.message_id ≠ r2.message_id) →
      list_messages limit offset f si q db = list_messages limit offset f si q db2 := by
  constructor
  · have hsorted : ((db.filter (rowMatches f si q)).mergeSort rowLe).Pairwise (rowLe · ·) :=
      List.sorted_mergeSort rowLe_trans rowLe_total (db.filter (rowMatches f si q))
    exact List.Pairwise.sublist ((List.take_sublist _ _).trans (List.drop_sublist _ _)) hsorted
  · intro db2 hperm hids
    have hfilter : (db.filter (rowMatches f si q)).Perm (db2.filter (rowMatches f si q)) :=
      hperm.filter _
    have hs1 : ((db.filter (rowMatches f si q)).mergeSort rowLe).Pairwise (rowLe · ·) :=
      List.sorted_mergeSort rowLe_trans rowLe_total _
    have hs2 : ((db2.filter (rowMatches f si q)).mergeSort rowLe).Pairwise (rowLe · ·) :=
      List.sorted_mergeSort rowLe_trans rowLe_total _
    have hsp : ((db.filter (rowMatches f si q)).mergeSort rowLe).Perm
        ((db2.filter (rowMatches f si q)).mergeSort rowLe) :=
      ((List.mergeSort_perm _ _).trans hfilter).trans (List.mergeSort_perm _ _).symm
    have hanti : ∀ a ∈ (db.filter (rowMatches f si q)).mergeSort rowLe,
        ∀ b ∈ (db.filter (rowMatches f si q)).mergeSort rowLe,
        rowLe a b → rowLe b a → a = b := by
      intro a ha b hb hab hba
      have ha' : a ∈ db := List.mem_filter.mp ((List.mergeSort_perm _ _).mem_iff.mp ha) |>.1
      have hb' : b ∈ db := List.mem_filter.mp ((List.mergeSort_perm _ _).mem_iff.mp hb) |>.1
      by_contra hne
      exact absurd (rowLe_antisymm_keys a b hab hba).2
        (hids.forall (fun x y h => h.symm) ha' hb' hne)
    have heq : (db.filter (rowMatches f si q)).mergeSort rowLe =
        (db2.filter (rowMatches f si q)).mergeSort rowLe :=
      eq_of_sorted_of_perm rowLe _ _ hsp hanti hs1 hs2
    simp only [list_messages, heq, hfilter.length_eq]

/-- C5 witness: two insertion orders of the same two rows produce an
identical, sorted listing. -/
theorem C5_page_sorted_witness :
    ((list_messages 50 0 none none none
        [⟨"a", "+1", "+2", "2024-05-05T00:00:00Z", none, "c"⟩,
          ⟨"b", "+1", "+2", "2023-01-01T00:00:00Z", none, "c"⟩]).1).Pairwise (rowLe · ·) ∧
    list_messages 50 0 none none none
        [⟨"a", "+1", "+2", "2024-05-05T00:00:00Z", none, "c"⟩,
          ⟨"b", "+1", "+2", "2023-01-01T00:00:00Z", none, "c"⟩] =
      list_messages 50 0 none none none
        [⟨"b", "+1", "+2", "2023-01-01T00:00:00Z", none, "c"⟩,
          ⟨"a", "+1", "+2", "2024-05-05T00:00:00Z", none, "c"⟩] :=
  ⟨(C5_page_sorted 50 0 none none none
      [⟨"a", "+1", "+2", "2024-05-05T00:00:00Z", none, "c"⟩,
        ⟨"b", "+1", "+2", "2023-01-01T00:00:00Z", none, "c"⟩]).1,
    (C5_page_sorted 50 0 none none none
      [⟨"a", "+1", "+2", "2024-05-05T00:00:00Z", none, "c"⟩,
        ⟨"b", "+1", "+2", "2023-01-01T00:00:00Z", none, "c"⟩]).2
      [⟨"b", "+1", "+2", "2023-01-01T00:00:00Z", none, "c"⟩,
        ⟨"a", "+1", "+2", "2024-05-05T00:00:00Z", none, "c"⟩]
      (List.Perm.swap _ _ _) (by decide)⟩

/-- C2: a `POST /webhook` whose `X-Signature` equals the hex HMAC-SHA256 of
the raw body under the secret passes signature verification (is never
answered with the invalid-signature response), and any other header value —
absent, empty, or differing anywhere from that digest — is rejected with
status 401, body `{"detail": "invalid signature"}`, and an unchanged
store. -/
theorem C2_signature_check (secret : String) (rawBody : List Nat)
    (decoded : Option RawPayload) (isoParses : String → Bool) (now : String)
    (db : List Row) (sig : Option String) :
    ((webhook secret rawBody (some (hmacSha256Hex (utf8Bytes secret) rawBody))
        decoded isoParses now db).1 ≠ WebhookResponse.invalidSignature) ∧
    (sig ≠ some (hmacSha256Hex (utf8Bytes secret) rawBody) →
      webhook secret rawBody sig decoded isoParses now db =
        (WebhookResponse.invalidSignature, db)) ∧
    WebhookResponse.invalidSignature.status = 401 ∧
    WebhookResponse.invalidSignature.bodyPairs = [("detail", "invalid signature")] := by
  have hne := hmacSha256Hex_ne_empty (utf8Bytes secret) rawBody
  refine ⟨?_, ?_, rfl, rfl⟩
  · cases decoded with
    | none => simp [webhook, hne]
    | some raw =>
      cases hv : validatePayload isoParses raw with
      | error fs => simp [webhook, hne, hv]
      | ok p => simp [webhook, hne, hv]
  · intro hsig
    match sig with
    | none => rfl
    | some h =>
      by_cases h0 : h = ""
      · subst h0
        simp [webhook]
      · by_cases h1 : h = hmacSha256Hex (utf8Bytes secret) rawBody
        · exact absurd (by rw [h1]) hsig
        · simp [webhook, h0, h1]

/-- C2 witness: the genuine signature passes; an absent header is rejected
with 401, the invalid-signature body, and no insert. -/
theorem C2_signature_check_witness :
    ((webhook "topsecret" (utf8Bytes "payload")
        (some (hmacSha256Hex (utf8Bytes "topsecret") (utf8Bytes "payload")))
        none (fun _ => true) "c1" []).1 ≠ WebhookResponse.invalidSignature) ∧
    webhook "topsecret" (utf8Bytes "payload") none none (fun _ => true) "c1" [] =
      (WebhookResponse.invalidSignature, []) :=
  ⟨(C2_signature_check "topsecret" (utf8Bytes "payload") none (fun _ => true)
      "c1" [] none).1,
    (C2_signature_check "topsecret" (utf8Bytes "payload") none (fun _ => true)
      "c1" [] none).2.1 (by simp)⟩

/-- C3: a correctly signed request whose payload validates is answered with
200 `{"status": "ok"}` whatever the store outcome (`Created` on a fresh
`message_id`, `Duplicate` on a retry), and replaying the identical delivery
against the resulting store is again answered with the same success
response. -/
theorem C3_success_created_and_duplicate (secret : String) (rawBody : List Nat)
    (raw : RawPayload) (isoParses : String → Bool) (now now2 : String)
    (db : List Row) (p : WebhookPayload)
    (hv : validatePayload isoParses raw = .ok p) :
    ((webhook secret rawBody (some (hmacSha256Hex (utf8Bytes secret) rawBody))
        (some raw) isoParses now db).1 = WebhookResponse.success) ∧
    ((webhook secret rawBody (some (hmacSha256Hex (utf8Bytes secret) rawBody))
        (some raw) isoParses now db).1.status = 200) ∧
    ((webhook secret rawBody (some (hmacSha256Hex (utf8Bytes secret) rawBody))
        (some raw) isoParses now db).1.bodyPairs = [("status", "ok")]) ∧
    ((webhook secret rawBody (some (hmacSha256Hex (utf8Bytes secret) rawBody))
        (some raw) isoParses now2
        (webhook secret rawBody (some (hmacSha256Hex (utf8Bytes secret) rawBody))
          (some raw) isoParses now db).2).1 = WebhookResponse.success) := by
  have hne := hmacSha256Hex_ne_empty (utf8Bytes secret) rawBody
  have h1 : ∀ (now' : String) (db' : List Row),
      (webhook secret rawBody (some (hmacSha256Hex (utf8Bytes secret) rawBody))
        (some raw) isoParses now' db').1 = WebhookResponse.success := by
    intro now' db'
    simp [webhook, hne, hv]
  refine ⟨h1 now db, ?_, ?_, h1 now2 _⟩
  · rw [h1 now db]
    rfl
  · rw [h1 now db]
    rfl

/-- C3 witness: a concrete valid signed delivery, created then retried. -/
theorem C3_success_created_and_duplicate_witness :
    ((webhook "topsecret" (utf8Bytes "payload")
        (some (hmacSha256Hex (utf8Bytes "topsecret") (utf8Bytes "payload")))
        (some ⟨some "m1", some "+15551234567", some "+15557654321",
          some "2024-01-01T00:00:00Z", some "hi"⟩)
        (fun _ => true) "c1" []).1 = WebhookResponse.success) ∧
    ((webhook "topsecret" (utf8Bytes "payload")
        (some (hmacSha256Hex (utf8Bytes "topsecret") (utf8Bytes "payload")))
        (some ⟨some "m1", some "+15551234567", some "+15557654321",
          some "2024-01-01T00:00:00Z", some "hi"⟩)
        (fun _ => true) "c2"
        (webhook "topsecret" (utf8Bytes "payload")
          (some (hmacSha256Hex (utf8Bytes "topsecret") (utf8Bytes "payload")))
          (some ⟨some "m1", some "+15551234567", some "+15557654321",
            some "2024-01-01T00:00:00Z", some "hi"⟩)
          (fun _ => true) "c1" []).2).1 = WebhookResponse.success) :=
  ⟨(C3_success_created_and_duplicate "topsecret" (utf8Bytes "payload")
      ⟨some "m1", some "+15551234567", some "+15557654321",
        some "2024-01-01T00:00:00Z", some "hi"⟩
      (fun _ => true) "c1" "c2" []
      ⟨"m1", "+15551234567", "+15557654321", "2024-01-01T00:00:00Z", some "hi"⟩
      rfl).1,
    (C3_success_created_and_duplicate "topsecret" (utf8Bytes "payload")
      ⟨some "m1", some "+15551234567", some "+15557654321",
        some "2024-01-01T00:00:00Z", some "hi"⟩
      (fun _ => true) "c1" "c2" []
      ⟨"m1", "+15551234567", "+15557654321", "2024-01-01T00:00:00Z", some "hi"⟩
      rfl).2.2.2⟩

/-- C7: a correctly signed request whose decoded payload fails validation —
a missing required field, `from` or `to` not matching the `^\+\d+$` pattern,
an unparsable `ts`, or `text` longer than 4096 characters — is answered with
status 422 and the store is left unchanged. -/
theorem C7_validation_failure_422 (secret : String) (rawBody : List Nat)
    (raw : RawPayload) (isoParses : String → Bool) (now : String) (db : List Row)
    (hbad : raw.message_id = none ∨ raw.fromF = none ∨ raw.toF = none ∨ raw.ts = none ∨
      (∃ f, raw.fromF = some f ∧ matchesMsisdn f = false) ∨
      (∃ t, raw.toF = some t ∧ matchesMsisdn t = false) ∨
      (∃ u, raw.ts = some u ∧ tsParses isoParses u = false) ∨
      (∃ x, raw.text = some x ∧ x.length > 4096)) :
    webhook secret rawBody (some (hmacSha256Hex (utf8Bytes secret) rawBody))
        (some raw) isoParses now db =
      (WebhookResponse.validationFailure (payloadErrors isoParses raw), db) ∧
    (WebhookResponse.validationFailure (payloadErrors isoParses raw)).status = 422 := by
  have hne := hmacSha256Hex_ne_empty (utf8Bytes secret) rawBody
  have herr : payloadErrors isoParses raw ≠ [] := by
    rcases hbad with h | h | h | h | ⟨f, hsome, hm⟩ | ⟨t, hsome, hm⟩ |
        ⟨u, hsome, hm⟩ | ⟨x, hsome, hm⟩
    · simp [payloadErrors, h]
    · simp [payloadErrors, h]
    · simp [payloadErrors, h]
    · simp [payloadErrors, h]
    · simp [payloadErrors, hsome, hm]
    · simp [payloadErrors, hsome, hm]
    · simp [payloadErrors, hsome, hm]
    · have hx : ¬ x.length ≤ 4096 := by omega
      simp [payloadErrors, hsome, hx]
  have hv : validatePayload isoParses raw = .error (payloadErrors isoParses raw) := by
    unfold validatePayload
    rw [if_neg herr]
  exact ⟨by simp [webhook, hne, hv], rfl⟩

/-- C7 witness: a signed payload whose `from` field lacks the leading `+`. -/
theorem C7_validation_failure_422_witness :
    webhook "topsecret" (utf8Bytes "payload")
        (some (hmacSha256Hex (utf8Bytes "topsecret") (utf8Bytes "payload")))
        (some ⟨some "m1", some "15551234567", some "+15557654321",
          some "2024-01-01T00:00:00Z", some "hi"⟩)
        (fun _ => true) "c1" [] =
      (WebhookResponse.validationFailure
        (payloadErrors (fun _ => true)
          ⟨some "m1", some "15551234567", some "+15557654321",
            some "2024-01-01T00:00:00Z", some "hi"⟩), []) :=
  (C7_validation_failure_422 "topsecret" (utf8Bytes "payload")
    ⟨some "m1", some "15551234567", some "+15557654321",
      some "2024-01-01T00:00:00Z", some "hi"⟩
    (fun _ => true) "c1" []
    (Or.inr (Or.inr (Or.inr (Or.inr (Or.inl ⟨"15551234567", rfl, rfl⟩)))))).1

/-- C6 (code evidence): the `q` filter is `LOWER(text) LIKE LOWER('%q%')`
with the user's `q` spliced in unescaped, so LIKE wildcards in `q` are
interpreted: with one stored row whose `text` is `"ab"`, the query `q = "_"`
counts the row as a match (`_` matches any single character) even though
`"_"` does not occur in `"ab"` at all — contradicting the documented
case-insensitive substring semantics. -/
theorem C6_like_wildcard_breaks_substring_semantics :
    (list_messages 50 0 none none (some "_")
        [⟨"m1", "+15551234567", "+15557654321", "2024-01-01T00:00:00Z",
          some "ab", "c1"⟩]).2 = 1 ∧
    qMatches "_" (some "ab") = true ∧
    ¬ ("_".data <:+: "ab".data) ∧
    qMatches "x" none = false := by
  refine ⟨rfl, rfl, by decide, rfl⟩

end Webhook
